import Mathlib

/-!
Verification development for the bot-loop repository: the people upsert
store (getusers.py, persist_people_to_sqlite), the paginated fetch loop
(getusers.py, main), batch dispatch (delete.py and message.py), response
classification (delete.py delete_message, message.py send_message),
cookie-header parsing (build_session_from_cookie) and entry-point exit
codes.
-/

namespace BotLoop

/-- The `profile` sub-dict of one person item. Each field models
`profile.get(key)`; `none` stands for a missing key or a `None` value. -/
structure Profile where
  real_name : Option String
  display_name : Option String
  email : Option String
  team : Option String
  image_192 : Option String
  image_72 : Option String
  image_512 : Option String
  deriving DecidableEq, Repr

/-- One element of the `items` list handed to persist_people_to_sqlite.
`id` and `username` model `item.get(key, "")` with `none` for a missing
key; `profile` models `item.get("profile", dict()) or dict()` with `none`
for a missing or falsy value. -/
structure Item where
  id : Option String
  username : Option String
  profile : Option Profile
  deriving DecidableEq, Repr

/-- One row of the sqlite `people` table (user_id is the PRIMARY KEY). -/
structure Row where
  user_id : String
  username : String
  real_name : String
  display_name : String
  email : String
  team_id : String
  image_192 : String
  image_512 : String
  deriving DecidableEq, Repr

/-- Python `a or b` restricted to strings: `b` when `a` is falsy (empty). -/
def pyOr (a b : String) : String :=
  if a = "" then b else a

/-- The empty `profile` dict used as default in persist_people_to_sqlite. -/
def emptyProfile : Profile :=
  ⟨none, none, none, none, none, none, none⟩

/-- Field extraction performed for each item inside
persist_people_to_sqlite (getusers.py lines 72-84):
`profile.get(k) or ""` collapses missing/None/empty to `""`, and
image_192 falls back to image_72. -/
def extractRow (item : Item) : Row :=
  let profile := item.profile.getD emptyProfile
  { user_id := item.id.getD ""
    username := item.username.getD ""
    real_name := (profile.real_name.getD "")
    display_name := (profile.display_name.getD "")
    email := (profile.email.getD "")
    team_id := (profile.team.getD "")
    image_192 := pyOr (profile.image_192.getD "") (profile.image_72.getD "")
    image_512 := (profile.image_512.getD "") }

/-- The rows actually passed to `executemany`: items whose extracted
user_id is empty are skipped (`if not user_id: continue`). -/
def pageRows (items : List Item) : List Row :=
  (items.map extractRow).filter (fun r => r.user_id ≠ "")

/-- Does the store contain a row with this primary key? -/
def hasId (store : List Row) (uid : String) : Bool :=
  store.any (fun r => r.user_id = uid)

/-- One `INSERT ... ON CONFLICT(user_id) DO UPDATE` execution: if the key
is present the conflicting row's secondary fields are overwritten with
the excluded values (so the row becomes `r`, in place); otherwise the new
row is appended. -/
def upsertRow (store : List Row) (r : Row) : List Row :=
  if hasId store r.user_id then
    store.map (fun x => if x.user_id = r.user_id then r else x)
  else
    store ++ [r]

/-- persist_people_to_sqlite (getusers.py lines 40-90) applied to the
`items` list of one page: `executemany` runs the upsert once per row, in
list order, and commits. -/
def persist_people_to_sqlite (items : List Item) (store : List Row) : List Row :=
  (pageRows items).foldl upsertRow store

/-- Applying a sequence of fetched pages to the store, in order. -/
def applyPages (pages : List (List Item)) (store : List Row) : List Row :=
  pages.foldl (fun st p => persist_people_to_sqlite p st) store

/-- The concatenation of the persisted rows of a sequence of pages. -/
def pagesRows : List (List Item) → List Row
  | [] => []
  | p :: ps => pageRows p ++ pagesRows ps

/-- Primary-key lookup in the store. -/
def findRow (store : List Row) (uid : String) : Option Row :=
  store.find? (fun r => r.user_id = uid)

/-- The last row carrying a given key in a row sequence. -/
def lastWith (rs : List Row) (uid : String) : Option Row :=
  rs.reverse.find? (fun r => r.user_id = uid)

/-- The in-place update applied to each stored row on a key conflict. -/
def updFun (r : Row) : Row → Row :=
  fun x => if x.user_id = r.user_id then r else x

/-- An item carrying no "id" key, used to exercise the skip branch. -/
def itemNoId : Item :=
  { id := none, username := some "ghost", profile := none }

/-- A parsed JSON body as the fetch loop observes it: either not a dict
(items then default to the empty list, getusers.py line 198) or a dict
whose "items" field holds the given list (a missing field is the empty
list). -/
inductive ParsedJson
  | notDict
  | dict (items : List Item)
  deriving DecidableEq, Repr

/-- A completed HTTP response, reduced to the observations the loop makes
of it: the status code (only printed), the three login-page indicators
(substring tests on Content-Type, lowercased body, lowercased final URL),
and the JSON parse result (`none` when resp.json() raises ValueError). -/
structure FetchOk where
  status : Nat
  contentTypeHasHtml : Bool
  bodyHasDoctype : Bool
  urlHasLogin : Bool
  json : Option ParsedJson
  deriving DecidableEq, Repr

/-- Outcome of one `s.post` call: a raised transport exception (which
propagates out of main, getusers.py line 173 has no try) or a response. -/
inductive FetchResp
  | transportError
  | ok (r : FetchOk)
  deriving DecidableEq, Repr

/-- Why the fetch loop stopped. -/
inductive StopReason
  | transportFail
  | authInvalid
  | notJson
  | exhausted
  | maxPagesReached
  | fuelOut
  deriving DecidableEq, Repr

/-- Final state of one run of the fetch loop of getusers.py main. -/
structure FetchResult where
  reason : StopReason
  requested : List Nat
  pagesOk : Nat
  totalItems : Nat
  store : List Row
  deriving DecidableEq, Repr

def itemsOf : ParsedJson → List Item
  | .notDict => []
  | .dict its => its

/-- The `while True` fetch loop of getusers.py main (lines 166-216),
with an explicit fuel bound for termination. Per iteration it requests
`page`, then in source order: an HTML/login indicator stops the loop, a
JSON parse failure stops it, an empty items list stops it; otherwise the
page is persisted, the counters advance, the page number advances by one,
and a configured positive MAX_PAGES ceiling already reached stops it. -/
def fetchLoop (respond : Nat → FetchResp) (maxPages : Nat) :
    Nat → Nat → Nat → Nat → List Row → List Nat → FetchResult
  | 0, _, pagesOk, total, store, req => ⟨.fuelOut, req, pagesOk, total, store⟩
  | fuel + 1, page, pagesOk, total, store, req =>
    match respond page with
    | .transportError => ⟨.transportFail, req ++ [page], pagesOk, total, store⟩
    | .ok r =>
      if r.contentTypeHasHtml || r.bodyHasDoctype || r.urlHasLogin then
        ⟨.authInvalid, req ++ [page], pagesOk, total, store⟩
      else
        match r.json with
        | none => ⟨.notJson, req ++ [page], pagesOk, total, store⟩
        | some pj =>
          if (itemsOf pj).isEmpty then
            ⟨.exhausted, req ++ [page], pagesOk, total, store⟩
          else
            if 0 < maxPages ∧ maxPages ≤ pagesOk + 1 then
              ⟨.maxPagesReached, req ++ [page], pagesOk + 1,
                total + (itemsOf pj).length,
                persist_people_to_sqlite (itemsOf pj) store⟩
            else
              fetchLoop respond maxPages fuel (page + 1) (pagesOk + 1)
                (total + (itemsOf pj).length)
                (persist_people_to_sqlite (itemsOf pj) store) (req ++ [page])

/-- A run of getusers.py main's loop from the configured start page with
fresh counters and an empty trace. -/
def runFetch (respond : Nat → FetchResp) (maxPages pageStart fuel : Nat) : FetchResult :=
  fetchLoop respond maxPages fuel pageStart 0 0 [] []

/-- A response that the loop persists: no login indicator, parseable
JSON dict with a non-empty items list. -/
def GoodPage (resp : FetchResp) : Prop :=
  ∃ sc items, items ≠ [] ∧
    resp = FetchResp.ok ⟨sc, false, false, false, some (ParsedJson.dict items)⟩

/-- A response carrying a parseable dict with zero items. -/
def EmptyPage (resp : FetchResp) : Prop :=
  ∃ sc, resp = FetchResp.ok ⟨sc, false, false, false, some (ParsedJson.dict [])⟩

/-- A response with at least one of the three login-page indicators. -/
def AuthPage (resp : FetchResp) : Prop :=
  ∃ sc ctH doct lg j, (ctH || doct || lg) = true ∧
    resp = FetchResp.ok ⟨sc, ctH, doct, lg, j⟩

/-- A directory entry used in concrete runs. -/
def sampleItem : Item :=
  { id := some "U1", username := some "alice", profile := none }

/-- Endpoint serving good pages 1 and 2 and zero items from page 3 on. -/
def respondTwoPages (p : Nat) : FetchResp :=
  if p ≤ 2 then
    FetchResp.ok ⟨200, false, false, false, some (ParsedJson.dict [sampleItem])⟩
  else
    FetchResp.ok ⟨200, false, false, false, some (ParsedJson.dict [])⟩

/-- Endpoint serving a good page 1 and an HTML login page from page 2. -/
def respondAuth (p : Nat) : FetchResp :=
  if p = 1 then
    FetchResp.ok ⟨200, false, false, false, some (ParsedJson.dict [sampleItem])⟩
  else
    FetchResp.ok ⟨200, true, false, false, none⟩

/-- Two per-page outcomes that agree except possibly in the HTTP status
code of a completed response. -/
def SameButStatus : FetchResp → FetchResp → Prop
  | .transportError, .transportError => True
  | .ok a, .ok b =>
      a.contentTypeHasHtml = b.contentTypeHasHtml ∧
      a.bodyHasDoctype = b.bodyHasDoctype ∧
      a.urlHasLogin = b.urlHasLogin ∧ a.json = b.json
  | _, _ => False

/-- An endpoint always answering HTTP 500 with the JSON body of an empty
page. -/
def respond500 : Nat → FetchResp :=
  fun _ => FetchResp.ok ⟨500, false, false, false, some (ParsedJson.dict [])⟩

/-- Same endpoint with status 200. -/
def respond200 : Nat → FetchResp :=
  fun _ => FetchResp.ok ⟨200, false, false, false, some (ParsedJson.dict [])⟩

/-- An endpoint whose requests always raise a transport error. -/
def respondT : Nat → FetchResp :=
  fun _ => FetchResp.transportError

/-- The per-message deletion loop of delete.py main (lines 192-207): one
delete_message call per deletable timestamp, in input order, each paired
with its outcome; no failure aborts the loop. -/
def deleteDispatch (delOk : String → Bool) (tss : List String) : List (String × Bool) :=
  tss.map (fun ts => (ts, delOk ts))

/-- success_count of the deletion loop: deletions that returned True. -/
def deleteSuccessCount (delOk : String → Bool) (tss : List String) : Nat :=
  tss.countP (fun ts => delOk ts)

/-- Failed deletions (reported as the success/total gap in the source). -/
def deleteFailureCount (delOk : String → Bool) (tss : List String) : Nat :=
  tss.countP (fun ts => !(delOk ts))

/-- One step of the broadcast loop of message.py main (lines 305-312):
an "error" key in the send result bumps the failure counter, otherwise
the success counter. -/
def broadcastStep (hasErr : String → Bool) (acc : Nat × Nat) (uid : String) : Nat × Nat :=
  if hasErr uid then (acc.1, acc.2 + 1) else (acc.1 + 1, acc.2)

/-- The (success, failure) counters after the whole broadcast loop. -/
def broadcastCounts (hasErr : String → Bool) (tos : List String) : Nat × Nat :=
  tos.foldl (broadcastStep hasErr) (0, 0)

/-- The per-recipient outcomes of the broadcast loop, in input order
(`true` = success). -/
def broadcastOutcomes (hasErr : String → Bool) (tos : List String) : List (String × Bool) :=
  tos.map (fun uid => (uid, !(hasErr uid)))

/-- The parsed JSON body of a delete response: the truthiness of
`data.get("ok")`. -/
structure DeleteJson where
  ok : Bool
  deriving DecidableEq, Repr

/-- A delete_message call's observable response (delete.py lines 74-112):
a raised transport exception, the HTTP status, and the JSON parse result
(`none` when response.json() raises ValueError). -/
structure DeleteResp where
  transportFail : Bool
  status : Nat
  json : Option DeleteJson
  deriving DecidableEq, Repr

/-- delete.py delete_message's success classification: a transport
failure is failure; only status exactly 200 is further inspected, where a
truthy "ok" field or an unparseable body means success; any other status
is failure. -/
def delete_message (r : DeleteResp) : Bool :=
  if r.transportFail then false
  else if r.status = 200 then
    match r.json with
    | some d => d.ok
    | none => true
  else false

/-- The parsed JSON body of a send response: whether the dict carries an
"error" key. -/
structure SendJson where
  hasErrorField : Bool
  deriving DecidableEq, Repr

/-- A send_message call's observable response (message.py lines
196-228). -/
structure SendResp where
  transportFail : Bool
  htmlContentType : Bool
  status : Nat
  json : Option SendJson
  deriving DecidableEq, Repr

/-- Whether the dict send_message returns carries an "error" key, which
is how message.py main classifies failure (lines 288, 307): transport
failure and an HTML content type yield error dicts; a parsed JSON body is
returned as-is; an unparseable body yields a success dict at status
exactly 200 and an error dict at any other status. -/
def send_hasError (r : SendResp) : Bool :=
  if r.transportFail then true
  else if r.htmlContentType then true
  else
    match r.json with
    | some j => j.hasErrorField
    | none => if r.status = 200 then false else true

/-- ASCII whitespace as stripped by Python str.strip on the headers we
model. -/
def isWs (c : Char) : Bool :=
  c = ' ' || c = '\t' || c = '\n' || c = '\r'

/-- Python str.strip over the characters of a string. -/
def strip (s : List Char) : List Char :=
  ((s.dropWhile isWs).reverse.dropWhile isWs).reverse

/-- Python str.split(sep) for a one-character separator: every separator
occurrence splits, empty fragments included. -/
def splitOnChar (c : Char) : List Char → List (List Char)
  | [] => [[]]
  | x :: xs =>
    let r := splitOnChar c xs
    if x = c then [] :: r
    else
      match r with
      | [] => [[x]]
      | h :: t => (x :: h) :: t

/-- Python p.split(sep, 1): the part before the first separator and the
whole rest after it, or `none` when the separator does not occur (the
`sep in p` test). -/
def splitFirst (c : Char) : List Char → Option (List Char × List Char)
  | [] => none
  | x :: xs =>
    if x = c then some ([], xs)
    else
      match splitFirst c xs with
      | none => none
      | some (a, b) => some (x :: a, b)

/-- The (name, value) cookie parsed from one fragment: present exactly
when the fragment contains "=", split at the first "=", both sides
stripped. -/
def parsePair (p : List Char) : Option (List Char × List Char) :=
  match splitFirst '=' p with
  | none => none
  | some (n, v) => some (strip n, strip v)

/-- The non-empty stripped ";"-separated fragments of the header
(`[p.strip() for p in cookie_header.split(";") if p.strip()]`). -/
def cookieFragments (header : List Char) : List (List Char) :=
  ((splitOnChar ';' header).map strip).filter (fun p => p ≠ [])

/-- s.cookies.set for the fixed slack domain: overwrite an existing
cookie of the same name, else append. -/
def setCookie (jar : List (List Char × List Char)) (n v : List Char) :
    List (List Char × List Char) :=
  if jar.any (fun x => x.1 = n) then
    jar.map (fun x => if x.1 = n then (n, v) else x)
  else
    jar ++ [(n, v)]

/-- Processing of one fragment by the loop body of
build_session_from_cookie: fragments without "=" are skipped. -/
def cookieStep (jar : List (List Char × List Char)) (p : List Char) :
    List (List Char × List Char) :=
  match parsePair p with
  | none => jar
  | some (n, v) => setCookie jar n v

/-- build_session_from_cookie (getusers.py 136-145, delete.py 20-28,
message.py 71-81): the cookie jar of the built session — a pure function
of the header, no network call involved. -/
def build_session_from_cookie (header : List Char) :
    List (List Char × List Char) :=
  (cookieFragments header).foldl cookieStep []

/-- One fetched message as delete.py main inspects it (presence flags
model the dict-key tests). -/
structure DMsg where
  type : String
  hasTs : Bool
  ts : String
  hasUser : Bool
  hasBotId : Bool
  deriving DecidableEq, Repr

/-- The deletable-message filter of delete.py main (lines 171-176). -/
def deletable (msgs : List DMsg) : List DMsg :=
  msgs.filter (fun m =>
    decide (m.type = "message") && m.hasTs && (m.hasUser || m.hasBotId))

/-- Exit status and per-deletion outcomes of one delete.py run. -/
structure DeleteRun where
  exit : Nat
  outcomes : List Bool
  deriving DecidableEq, Repr

/-- delete.py main (lines 129-222) reduced to its exit status and the
ordered per-deletion outcomes: missing credentials exit 1; file mode
with no channels exits 1; a dry run deletes nothing; otherwise the run
attempts every deletable message of every channel and the process then
falls off the end of main, exiting 0 whatever the outcomes were. -/
def deleteMain (cookie token : String) (channelArg : Option String)
    (fileChannels : List String) (dryRun : Bool)
    (messagesOf : String → List DMsg) (delOk : String → String → Bool) : DeleteRun :=
  if cookie = "" ∨ token = "" then ⟨1, []⟩
  else
    let channels := match channelArg with
      | some c => [c]
      | none => fileChannels
    if channelArg = none ∧ channels = [] then ⟨1, []⟩
    else if dryRun then ⟨0, []⟩
    else
      ⟨0, List.flatten (channels.map
        (fun ch => (deletable (messagesOf ch)).map (fun m => delOk ch m.ts)))⟩

/-- getusers.py lines 92-94: the process exits 1 before any request when
either credential is missing; a run that reaches the end of main exits
0. -/
def getusersExit (cookie token : String) : Nat :=
  if cookie = "" ∨ token = "" then 1 else 0

/-- State of content.txt as read_message_from_file observes it. -/
inductive FileState
  | missing
  | unreadable
  | content (s : String)
  deriving DecidableEq, Repr

/-- Python str.strip on a whole string. -/
def pyStrip (s : String) : String :=
  String.mk (strip s.data)

/-- message.py read_message_from_file (lines 246-259): the stripped file
content, falling back to "Hello" when the file is missing, unreadable,
or strips to empty. -/
def read_message_from_file (f : FileState) : String :=
  match f with
  | .missing => "Hello"
  | .unreadable => "Hello"
  | .content s => if pyStrip s = "" then "Hello" else pyStrip s

/-- Exit status and ordered (channel, text) send calls of one message.py
run. -/
structure MsgRun where
  exit : Nat
  sends : List (String × String)
  deriving DecidableEq, Repr

/-- message.py main (lines 261-317) reduced to its exit status and its
send calls. The text sent is always read from content.txt; the
positional message argument (msgArg) is parsed but never used. Missing
credentials exit 1. Single-channel mode sends once and exits 1 on an
"error" result. Broadcast mode over an empty recipient store stops with
a non-zero status (the undefined TO_USER name on line 296 raises, and an
empty fallback hits sys.exit(1)); otherwise it sends to every recipient
and exits 1 iff some send failed. -/
def messageMain (cookie token msgArg : String) (channelArg : Option String)
    (fileState : FileState) (dbIds : List String)
    (sendHasErr : String → Bool) : MsgRun :=
  let text := read_message_from_file fileState
  if cookie = "" ∨ token = "" then ⟨1, []⟩
  else
    match channelArg with
    | some ch => ⟨if sendHasErr ch then 1 else 0, [(ch, text)]⟩
    | none =>
      if dbIds = [] then ⟨1, []⟩
      else
        ⟨if 0 < dbIds.countP (fun uid => sendHasErr uid) then 1 else 0,
          dbIds.map (fun uid => (uid, text))⟩

theorem updFun_user_id (r x : Row) : (updFun r x).user_id = x.user_id := by
  unfold updFun
  by_cases h : x.user_id = r.user_id
  · simp [h]
  · simp [h]

theorem upsertRow_eq (s : List Row) (r : Row) :
    upsertRow s r = if hasId s r.user_id then s.map (updFun r) else s ++ [r] := by
  rfl

theorem hasId_map_updFun (s : List Row) (r : Row) (uid : String) :
    hasId (s.map (updFun r)) uid = hasId s uid := by
  unfold hasId
  rw [List.any_map]
  congr 1
  funext x
  simp [Function.comp, updFun_user_id]

theorem ids_map_updFun (s : List Row) (r : Row) :
    (s.map (updFun r)).map Row.user_id = s.map Row.user_id := by
  rw [List.map_map]
  apply List.map_congr_left
  intro x _
  exact updFun_user_id r x

theorem hasId_upsertRow (s : List Row) (r : Row) (uid : String) :
    hasId (upsertRow s r) uid = (hasId s uid || decide (r.user_id = uid)) := by
  rw [upsertRow_eq]
  by_cases hmem : hasId s r.user_id
  · rw [if_pos hmem, hasId_map_updFun]
    by_cases h : r.user_id = uid
    · subst h
      simp [hmem]
    · simp [h]
  · rw [if_neg hmem]
    unfold hasId
    rw [List.any_append]
    simp

theorem findRow_upsertRow (s : List Row) (r : Row) (uid : String) :
    findRow (upsertRow s r) uid = if r.user_id = uid then some r else findRow s uid := by
  rw [upsertRow_eq]
  by_cases hmem : hasId s r.user_id
  · rw [if_pos hmem]
    unfold findRow
    rw [List.find?_map]
    by_cases h : r.user_id = uid
    · subst h
      have hsome : (s.find? (fun x => decide (x.user_id = r.user_id))).isSome := by
        rw [List.find?_isSome]
        unfold hasId at hmem
        rw [List.any_eq_true] at hmem
        exact hmem
      obtain ⟨y, hy⟩ := Option.isSome_iff_exists.mp hsome
      have hyp : y.user_id = r.user_id := by
        have := List.find?_some hy
        exact of_decide_eq_true this
      have harg : (fun x => decide (x.user_id = r.user_id)) ∘ updFun r
          = fun x => decide (x.user_id = r.user_id) := by
        funext x
        simp [Function.comp, updFun_user_id]
      rw [harg, hy]
      simp [updFun, hyp]
    · rw [if_neg h]
      have harg : (fun x => decide (x.user_id = uid)) ∘ updFun r
          = fun x => decide (x.user_id = uid) := by
        funext x
        simp [Function.comp, updFun_user_id]
      rw [harg]
      cases hfind : s.find? (fun x => decide (x.user_id = uid)) with
      | none => rfl
      | some y =>
        have hp := List.find?_some hfind
        have hyp : y.user_id = uid := of_decide_eq_true hp
        have : updFun r y = y := by
          unfold updFun
          rw [if_neg]
          rw [hyp]
          exact fun hc => h hc.symm
        simp [this]
  · rw [if_neg hmem]
    unfold findRow
    rw [List.find?_append]
    by_cases h : r.user_id = uid
    · subst h
      have hnone : s.find? (fun x => decide (x.user_id = r.user_id)) = none := by
        rw [List.find?_eq_none]
        intro x hx hpx
        have : x.user_id = r.user_id := of_decide_eq_true hpx
        apply hmem
        unfold hasId
        rw [List.any_eq_true]
        exact ⟨x, hx, by simp [this]⟩
      rw [hnone]
      simp
    · rw [if_neg h]
      have hlast : List.find? (fun x => decide (x.user_id = uid)) [r] = none := by
        simp [h]
      rw [hlast, Option.or_none]

theorem lastWith_nil (uid : String) : lastWith [] uid = none := rfl

theorem lastWith_cons (r : Row) (t : List Row) (uid : String) :
    lastWith (r :: t) uid
      = (lastWith t uid).or (if r.user_id = uid then some r else none) := by
  unfold lastWith
  rw [List.reverse_cons, List.find?_append]
  congr 1
  by_cases h : r.user_id = uid
  · simp [h]
  · simp [h]

theorem findRow_foldl (rs : List Row) :
    ∀ (s : List Row) (uid : String),
      findRow (rs.foldl upsertRow s) uid = (lastWith rs uid).or (findRow s uid) := by
  induction rs with
  | nil =>
    intro s uid
    simp [lastWith]
  | cons r t ih =>
    intro s uid
    rw [List.foldl_cons, ih, lastWith_cons, findRow_upsertRow]
    by_cases h : r.user_id = uid
    · rw [if_pos h, if_pos h, Option.or_assoc, Option.or_some]
    · rw [if_neg h, if_neg h, Option.or_none]

theorem nodup_ids_upsertRow (s : List Row) (r : Row)
    (h : (s.map Row.user_id).Nodup) : ((upsertRow s r).map Row.user_id).Nodup := by
  rw [upsertRow_eq]
  by_cases hmem : hasId s r.user_id
  · rw [if_pos hmem, ids_map_updFun]
    exact h
  · rw [if_neg hmem, List.map_append]
    refine h.append (List.nodup_singleton _) ?_
    intro a ha hb
    rw [List.map_singleton, List.mem_singleton] at hb
    subst hb
    obtain ⟨y, hy, hyid⟩ := List.mem_map.mp ha
    apply hmem
    unfold hasId
    rw [List.any_eq_true]
    exact ⟨y, hy, by simp [hyid]⟩

theorem nodup_ids_foldl (rs : List Row) :
    ∀ s : List Row, (s.map Row.user_id).Nodup →
      ((rs.foldl upsertRow s).map Row.user_id).Nodup := by
  induction rs with
  | nil => exact fun s h => h
  | cons r t ih =>
    intro s h
    rw [List.foldl_cons]
    exact ih (upsertRow s r) (nodup_ids_upsertRow s r h)

theorem hasId_upsertRow_self (s : List Row) (r : Row) :
    hasId (upsertRow s r) r.user_id = true := by
  rw [hasId_upsertRow]
  simp

theorem hasId_upsertRow_mono (s : List Row) (r : Row) (uid : String)
    (h : hasId s uid = true) : hasId (upsertRow s r) uid = true := by
  rw [hasId_upsertRow, h]
  rfl

theorem hasId_foldl_mono (rs : List Row) :
    ∀ (s : List Row) (uid : String), hasId s uid = true →
      hasId (rs.foldl upsertRow s) uid = true := by
  induction rs with
  | nil => exact fun s uid h => h
  | cons r t ih =>
    intro s uid h
    rw [List.foldl_cons]
    exact ih (upsertRow s r) uid (hasId_upsertRow_mono s r uid h)

theorem hasId_foldl_of_mem (rs : List Row) :
    ∀ s : List Row, ∀ r ∈ rs, hasId (rs.foldl upsertRow s) r.user_id = true := by
  induction rs with
  | nil =>
    intro s r hr
    cases hr
  | cons a t ih =>
    intro s r hr
    rw [List.foldl_cons]
    rcases List.mem_cons.mp hr with h | h
    · subst h
      exact hasId_foldl_mono t (upsertRow s r) r.user_id (hasId_upsertRow_self s r)
    · exact ih (upsertRow s a) r h

theorem foldl_upsert_all_present (rs : List Row) :
    ∀ s : List Row, (∀ r ∈ rs, hasId s r.user_id = true) →
      rs.foldl upsertRow s = s.map (fun x => (lastWith rs x.user_id).getD x) := by
  induction rs with
  | nil =>
    intro s _
    have : (fun x : Row => (lastWith [] x.user_id).getD x) = fun x => x := by
      funext x
      rfl
    rw [List.foldl_nil, this, List.map_id']
  | cons r t ih =>
    intro s hall
    have hr : hasId s r.user_id = true := hall r (List.mem_cons_self r t)
    have hup : upsertRow s r = s.map (updFun r) := by
      rw [upsertRow_eq, if_pos hr]
    rw [List.foldl_cons, hup]
    have hall' : ∀ r' ∈ t, hasId (s.map (updFun r)) r'.user_id = true := by
      intro r' hr'
      rw [hasId_map_updFun]
      exact hall r' (List.mem_cons_of_mem r hr')
    rw [ih (s.map (updFun r)) hall', List.map_map]
    congr 1
    funext x
    show (lastWith t (updFun r x).user_id).getD (updFun r x)
        = (lastWith (r :: t) x.user_id).getD x
    rw [updFun_user_id, lastWith_cons]
    cases hl : lastWith t x.user_id with
    | some r0 =>
      rw [Option.or_some]
      rfl
    | none =>
      rw [Option.none_or]
      unfold updFun
      by_cases h : x.user_id = r.user_id
      · rw [if_pos h, if_pos h.symm]
        rfl
      · rw [if_neg h, if_neg (fun hc => h hc.symm)]

theorem mem_upsertRow_eq_of_id (s : List Row) (r x : Row)
    (hx : x ∈ upsertRow s r) (hid : x.user_id = r.user_id) : x = r := by
  rw [upsertRow_eq] at hx
  by_cases hmem : hasId s r.user_id
  · rw [if_pos hmem] at hx
    obtain ⟨y, hy, hyx⟩ := List.mem_map.mp hx
    unfold updFun at hyx
    by_cases hy2 : y.user_id = r.user_id
    · rw [if_pos hy2] at hyx
      exact hyx.symm
    · rw [if_neg hy2] at hyx
      subst hyx
      exact absurd hid hy2
  · rw [if_neg hmem] at hx
    rcases List.mem_append.mp hx with h | h
    · exfalso
      apply hmem
      unfold hasId
      rw [List.any_eq_true]
      exact ⟨x, h, by simp [hid]⟩
    · exact List.mem_singleton.mp h

theorem foldl_upsert_frame (t : List Row) :
    ∀ (s : List Row) (uid : String), (∀ y ∈ t, y.user_id ≠ uid) →
      ∀ x ∈ t.foldl upsertRow s, x.user_id = uid → x ∈ s := by
  induction t with
  | nil =>
    intro s uid _ x hx _
    exact hx
  | cons a t' ih =>
    intro s uid hne x hx hxid
    rw [List.foldl_cons] at hx
    have hx' : x ∈ upsertRow s a :=
      ih (upsertRow s a) uid (fun y hy => hne y (List.mem_cons_of_mem a hy)) x hx hxid
    rw [upsertRow_eq] at hx'
    have hane : a.user_id ≠ uid := hne a (List.mem_cons_self a t')
    by_cases hmem : hasId s a.user_id
    · rw [if_pos hmem] at hx'
      obtain ⟨y, hy, hyx⟩ := List.mem_map.mp hx'
      unfold updFun at hyx
      by_cases hy2 : y.user_id = a.user_id
      · rw [if_pos hy2] at hyx
        subst hyx
        exact absurd hxid hane
      · rw [if_neg hy2] at hyx
        subst hyx
        exact hy
    · rw [if_neg hmem] at hx'
      rcases List.mem_append.mp hx' with h | h
      · exact h
      · rw [List.mem_singleton] at h
        subst h
        exact absurd hxid hane

theorem foldl_upsert_entry (rs : List Row) :
    ∀ (s : List Row), ∀ x ∈ rs.foldl upsertRow s, ∀ r0,
      lastWith rs x.user_id = some r0 → x = r0 := by
  induction rs with
  | nil =>
    intro s x _ r0 h
    cases h
  | cons r t ih =>
    intro s x hx r0 hlast
    rw [List.foldl_cons] at hx
    rw [lastWith_cons] at hlast
    cases hl : lastWith t x.user_id with
    | some r1 =>
      rw [hl, Option.or_some] at hlast
      cases hlast
      exact ih (upsertRow s r) x hx _ hl
    | none =>
      rw [hl, Option.none_or] at hlast
      by_cases hid : r.user_id = x.user_id
      · rw [if_pos hid] at hlast
        cases hlast
        have hfr : ∀ y ∈ t, y.user_id ≠ x.user_id := by
          intro y hy
          unfold lastWith at hl
          rw [List.find?_eq_none] at hl
          have := hl y (List.mem_reverse.mpr hy)
          simpa using this
        have hx' : x ∈ upsertRow s r :=
          foldl_upsert_frame t (upsertRow s r) x.user_id hfr x hx rfl
        exact mem_upsertRow_eq_of_id s r x hx' hid.symm
      · rw [if_neg hid] at hlast
        cases hlast

theorem persist_idem (items : List Item) (s : List Row) :
    persist_people_to_sqlite items (persist_people_to_sqlite items s)
      = persist_people_to_sqlite items s := by
  unfold persist_people_to_sqlite
  have hall : ∀ r ∈ pageRows items,
      hasId ((pageRows items).foldl upsertRow s) r.user_id = true :=
    hasId_foldl_of_mem (pageRows items) s
  rw [foldl_upsert_all_present (pageRows items) _ hall]
  have hpt : ∀ x ∈ (pageRows items).foldl upsertRow s,
      (lastWith (pageRows items) x.user_id).getD x = x := by
    intro x hx
    cases hl : lastWith (pageRows items) x.user_id with
    | none => rfl
    | some r0 =>
      have := foldl_upsert_entry (pageRows items) s x hx r0 hl
      rw [this]
      rfl
  calc ((pageRows items).foldl upsertRow s).map
        (fun x => (lastWith (pageRows items) x.user_id).getD x)
      = ((pageRows items).foldl upsertRow s).map (fun x => x) :=
        List.map_congr_left hpt
    _ = (pageRows items).foldl upsertRow s := List.map_id' _

theorem applyPages_eq_foldl (pages : List (List Item)) :
    ∀ s : List Row, applyPages pages s = (pagesRows pages).foldl upsertRow s := by
  induction pages with
  | nil => exact fun s => rfl
  | cons p ps ih =>
    intro s
    show applyPages ps (persist_people_to_sqlite p s)
        = (pageRows p ++ pagesRows ps).foldl upsertRow s
    rw [List.foldl_append, ih]
    rfl

/-- Claim C1: over every sequence of pages applied through
persist_people_to_sqlite starting from an empty people table, the store
never holds two rows with the same user_id, and the row stored under a
given user_id is exactly the last persisted row carrying that id
(last-write-wins): a conflicting insert overwrites the existing row
instead of adding a second one. -/
theorem spec_c1 (pages : List (List Item)) :
    ((applyPages pages []).map Row.user_id).Nodup ∧
    ∀ uid : String, findRow (applyPages pages []) uid = lastWith (pagesRows pages) uid := by
  constructor
  · rw [applyPages_eq_foldl]
    exact nodup_ids_foldl (pagesRows pages) [] (by simp)
  · intro uid
    rw [applyPages_eq_foldl, findRow_foldl]
    have : findRow [] uid = none := rfl
    rw [this, Option.or_none]

/-- Claim C2: persist_people_to_sqlite is idempotent — applying the same
page twice in succession leaves exactly the store produced by applying it
once — and an item whose extracted user_id is empty is skipped: removing
it from the page does not change the resulting store. -/
theorem spec_c2 (items : List Item) (s : List Row) (pre post : List Item) (it : Item) :
    persist_people_to_sqlite items (persist_people_to_sqlite items s)
        = persist_people_to_sqlite items s
    ∧ ((extractRow it).user_id = "" →
        persist_people_to_sqlite (pre ++ it :: post) s
          = persist_people_to_sqlite (pre ++ post) s) := by
  refine ⟨persist_idem items s, fun h => ?_⟩
  unfold persist_people_to_sqlite
  have hrows : pageRows (pre ++ it :: post) = pageRows (pre ++ post) := by
    unfold pageRows
    rw [List.map_append, List.map_cons, List.map_append]
    rw [List.filter_append, List.filter_append]
    rw [List.filter_cons_of_neg (by simp [h])]
  rw [hrows]

/-- Witness for C2 at a concrete input: the id-less item is indeed
skipped. -/
theorem spec_c2_witness :
    (extractRow itemNoId).user_id = "" ∧
    persist_people_to_sqlite ([] ++ itemNoId :: []) []
      = persist_people_to_sqlite ([] ++ []) [] := by
  refine ⟨by decide, ?_⟩
  exact (spec_c2 [] [] [] [] itemNoId).2 (by decide)

theorem fetchLoop_empty_step (respond : Nat → FetchResp) (maxPages f p0 ok0 t0 : Nat)
    (st : List Row) (req : List Nat) (h : EmptyPage (respond p0)) :
    fetchLoop respond maxPages (f + 1) p0 ok0 t0 st req
      = ⟨.exhausted, req ++ [p0], ok0, t0, st⟩ := by
  obtain ⟨sc, hresp⟩ := h
  simp only [fetchLoop, hresp]
  simp [itemsOf]

theorem fetchLoop_good_step (respond : Nat → FetchResp) (maxPages f p0 ok0 t0 : Nat)
    (st : List Row) (req : List Nat) (sc : Nat) (items : List Item) (hne : items ≠ [])
    (hresp : respond p0
      = FetchResp.ok ⟨sc, false, false, false, some (ParsedJson.dict items)⟩)
    (hcap : ¬(0 < maxPages ∧ maxPages ≤ ok0 + 1)) :
    fetchLoop respond maxPages (f + 1) p0 ok0 t0 st req
      = fetchLoop respond maxPages f (p0 + 1) (ok0 + 1) (t0 + items.length)
          (persist_people_to_sqlite items st) (req ++ [p0]) := by
  simp only [fetchLoop, hresp]
  simp [itemsOf, hne, hcap]

theorem fetchLoop_capped_step (respond : Nat → FetchResp) (maxPages f p0 ok0 t0 : Nat)
    (st : List Row) (req : List Nat) (sc : Nat) (items : List Item) (hne : items ≠ [])
    (hresp : respond p0
      = FetchResp.ok ⟨sc, false, false, false, some (ParsedJson.dict items)⟩)
    (hcap : 0 < maxPages ∧ maxPages ≤ ok0 + 1) :
    fetchLoop respond maxPages (f + 1) p0 ok0 t0 st req
      = ⟨.maxPagesReached, req ++ [p0], ok0 + 1, t0 + items.length,
          persist_people_to_sqlite items st⟩ := by
  simp only [fetchLoop, hresp]
  simp [itemsOf, hne, hcap]

theorem fetchLoop_exhausts (respond : Nat → FetchResp) :
    ∀ N fuel p0 ok0 t0 : Nat, ∀ (st : List Row) (req : List Nat),
      N + 1 ≤ fuel →
      (∀ i, i < N → GoodPage (respond (p0 + i))) →
      EmptyPage (respond (p0 + N)) →
      (fetchLoop respond 0 fuel p0 ok0 t0 st req).reason = StopReason.exhausted ∧
      (fetchLoop respond 0 fuel p0 ok0 t0 st req).requested
        = req ++ List.range' p0 (N + 1) ∧
      (fetchLoop respond 0 fuel p0 ok0 t0 st req).pagesOk = ok0 + N := by
  intro N
  induction N with
  | zero =>
    intro fuel p0 ok0 t0 st req hfuel _ hempty
    cases fuel with
    | zero => omega
    | succ f =>
      rw [Nat.add_zero] at hempty
      rw [fetchLoop_empty_step respond 0 f p0 ok0 t0 st req hempty]
      refine ⟨rfl, ?_, rfl⟩
      simp [List.range']
  | succ N ih =>
    intro fuel p0 ok0 t0 st req hfuel hgood hempty
    cases fuel with
    | zero => omega
    | succ f =>
      obtain ⟨sc, items, hne, hresp⟩ := hgood 0 (Nat.succ_pos N)
      rw [Nat.add_zero] at hresp
      rw [fetchLoop_good_step respond 0 f p0 ok0 t0 st req sc items hne hresp
        (by omega)]
      have hgood' : ∀ i, i < N → GoodPage (respond (p0 + 1 + i)) := by
        intro i hi
        have h := hgood (i + 1) (by omega)
        rwa [show p0 + (i + 1) = p0 + 1 + i by omega] at h
      have hempty' : EmptyPage (respond (p0 + 1 + N)) := by
        rwa [show p0 + (N + 1) = p0 + 1 + N by omega] at hempty
      obtain ⟨h1, h2, h3⟩ := ih f (p0 + 1) (ok0 + 1) (t0 + items.length)
        (persist_people_to_sqlite items st) (req ++ [p0]) (by omega) hgood' hempty'
      refine ⟨h1, ?_, by omega⟩
      rw [h2, List.range'_succ, List.append_assoc]
      rfl

theorem fetchLoop_capped (respond : Nat → FetchResp) (M : Nat) :
    ∀ k fuel p0 ok0 t0 : Nat, ∀ (st : List Row) (req : List Nat),
      0 < k → k ≤ fuel → ok0 + k = M →
      (∀ i, i < k → GoodPage (respond (p0 + i))) →
      (fetchLoop respond M fuel p0 ok0 t0 st req).reason = StopReason.maxPagesReached ∧
      (fetchLoop respond M fuel p0 ok0 t0 st req).requested = req ++ List.range' p0 k ∧
      (fetchLoop respond M fuel p0 ok0 t0 st req).pagesOk = M := by
  intro k
  induction k with
  | zero =>
    intro fuel p0 ok0 t0 st req hk
    omega
  | succ k ih =>
    intro fuel p0 ok0 t0 st req _ hfuel hM hgood
    cases fuel with
    | zero => omega
    | succ f =>
      obtain ⟨sc, items, hne, hresp⟩ := hgood 0 (Nat.succ_pos k)
      rw [Nat.add_zero] at hresp
      cases k with
      | zero =>
        rw [fetchLoop_capped_step respond M f p0 ok0 t0 st req sc items hne hresp
          (by omega)]
        refine ⟨rfl, ?_, by simpa using hM⟩
        simp [List.range']
      | succ k' =>
        rw [fetchLoop_good_step respond M f p0 ok0 t0 st req sc items hne hresp
          (by omega)]
        have hgood' : ∀ i, i < k' + 1 → GoodPage (respond (p0 + 1 + i)) := by
          intro i hi
          have h := hgood (i + 1) (by omega)
          rwa [show p0 + (i + 1) = p0 + 1 + i by omega] at h
        obtain ⟨h1, h2, h3⟩ := ih f (p0 + 1) (ok0 + 1) (t0 + items.length)
          (persist_people_to_sqlite items st) (req ++ [p0]) (by omega) (by omega)
          (by omega) hgood'
        refine ⟨h1, ?_, h3⟩
        rw [h2, List.range'_succ, List.append_assoc]
        rfl

/-- Claim C3: when the endpoint serves N good (non-empty, parseable,
non-HTML) pages from the start page and then a zero-items page, the loop
persists exactly N pages, requests strictly sequential page numbers
starting at the start page (the zero-items page being the one extra
request that reveals exhaustion), and stops normally; and with a positive
MAX_PAGES ceiling M it stops normally right after persisting M pages. -/
theorem spec_c3 :
    (∀ (respond : Nat → FetchResp) (N p0 fuel : Nat),
      N + 1 ≤ fuel →
      (∀ i, i < N → GoodPage (respond (p0 + i))) →
      EmptyPage (respond (p0 + N)) →
      (runFetch respond 0 p0 fuel).reason = StopReason.exhausted ∧
      (runFetch respond 0 p0 fuel).requested = List.range' p0 (N + 1) ∧
      (runFetch respond 0 p0 fuel).pagesOk = N) ∧
    (∀ (respond : Nat → FetchResp) (M p0 fuel : Nat),
      0 < M → M ≤ fuel →
      (∀ i, i < M → GoodPage (respond (p0 + i))) →
      (runFetch respond M p0 fuel).reason = StopReason.maxPagesReached ∧
      (runFetch respond M p0 fuel).requested = List.range' p0 M ∧
      (runFetch respond M p0 fuel).pagesOk = M) := by
  constructor
  · intro respond N p0 fuel hfuel hgood hempty
    have h := fetchLoop_exhausts respond N fuel p0 0 0 [] [] hfuel hgood hempty
    simpa [runFetch] using h
  · intro respond M p0 fuel hM hfuel hgood
    have h := fetchLoop_capped respond M M fuel p0 0 0 [] [] hM hfuel (by omega) hgood
    simpa [runFetch] using h

/-- Witness for C3: two good pages then an empty page give two persisted
pages, sequential requests 1,2,3 and a normal stop; with MAX_PAGES = 2
the run stops normally after two persisted pages. -/
theorem spec_c3_witness :
    (runFetch respondTwoPages 0 1 3).reason = StopReason.exhausted ∧
    (runFetch respondTwoPages 0 1 3).requested = List.range' 1 3 ∧
    (runFetch respondTwoPages 0 1 3).pagesOk = 2 ∧
    (runFetch respondTwoPages 2 1 9).reason = StopReason.maxPagesReached ∧
    (runFetch respondTwoPages 2 1 9).requested = List.range' 1 2 ∧
    (runFetch respondTwoPages 2 1 9).pagesOk = 2 := by
  have hgood : ∀ i, i < 2 → GoodPage (respondTwoPages (1 + i)) := by
    intro i hi
    refine ⟨200, [sampleItem], by simp, ?_⟩
    unfold respondTwoPages
    rw [if_pos (by omega)]
  have hempty : EmptyPage (respondTwoPages (1 + 2)) := by
    refine ⟨200, ?_⟩
    unfold respondTwoPages
    rw [if_neg (by omega)]
  have h1 := spec_c3.1 respondTwoPages 2 1 3 (by omega) hgood hempty
  have h2 := spec_c3.2 respondTwoPages 2 1 9 (by omega) (by omega) hgood
  exact ⟨h1.1, h1.2.1, h1.2.2, h2.1, h2.2.1, h2.2.2⟩

theorem fetchLoop_auth_step (respond : Nat → FetchResp) (maxPages f p0 ok0 t0 : Nat)
    (st : List Row) (req : List Nat) (h : AuthPage (respond p0)) :
    fetchLoop respond maxPages (f + 1) p0 ok0 t0 st req
      = ⟨.authInvalid, req ++ [p0], ok0, t0, st⟩ := by
  obtain ⟨sc, ctH, doct, lg, j, hflag, hresp⟩ := h
  simp only [fetchLoop, hresp]
  simp [hflag]

/-- Claim C5: a good page 1 followed by a login-page response (HTML
content type, doctype in the body, or a login URL) on page 2 makes the
loop persist exactly one page, stop with the auth-invalid outcome, and
request only pages 1 and 2 — no further page and no retry of page 2. -/
theorem spec_c5 (respond : Nat → FetchResp) (fuel : Nat) (hfuel : 2 ≤ fuel)
    (hg : GoodPage (respond 1)) (ha : AuthPage (respond 2)) :
    (runFetch respond 0 1 fuel).reason = StopReason.authInvalid ∧
    (runFetch respond 0 1 fuel).pagesOk = 1 ∧
    (runFetch respond 0 1 fuel).requested = [1, 2] := by
  obtain ⟨f, rfl⟩ : ∃ f, fuel = f + 2 := ⟨fuel - 2, by omega⟩
  obtain ⟨sc, items, hne, hresp⟩ := hg
  unfold runFetch
  rw [show f + 2 = (f + 1) + 1 from rfl]
  rw [fetchLoop_good_step respond 0 (f + 1) 1 0 0 [] [] sc items hne hresp (by omega)]
  simp only [Nat.zero_add, List.nil_append, show (1 : Nat) + 1 = 2 from rfl]
  rw [fetchLoop_auth_step respond 0 f 2 1 items.length
    (persist_people_to_sqlite items []) [1] ha]
  exact ⟨rfl, rfl, rfl⟩

/-- Witness for C5 at a concrete endpoint. -/
theorem spec_c5_witness :
    (runFetch respondAuth 0 1 2).reason = StopReason.authInvalid ∧
    (runFetch respondAuth 0 1 2).pagesOk = 1 ∧
    (runFetch respondAuth 0 1 2).requested = [1, 2] := by
  refine spec_c5 respondAuth 2 (by omega) ⟨200, [sampleItem], by simp, rfl⟩
    ⟨200, true, false, false, none, rfl, ?_⟩
  unfold respondAuth
  rw [if_neg (by omega)]

theorem fetchLoop_status_irrel (respond respond' : Nat → FetchResp)
    (h : ∀ p, SameButStatus (respond p) (respond' p)) :
    ∀ fuel maxPages page ok t : Nat, ∀ (st : List Row) (req : List Nat),
      fetchLoop respond maxPages fuel page ok t st req
        = fetchLoop respond' maxPages fuel page ok t st req := by
  intro fuel
  induction fuel with
  | zero =>
    intro maxPages page ok t st req
    rfl
  | succ f ih =>
    intro maxPages page ok t st req
    have hp := h page
    cases hr : respond page with
    | transportError =>
      cases hr' : respond' page with
      | transportError => simp only [fetchLoop, hr, hr']
      | ok b =>
        rw [hr, hr'] at hp
        cases hp
    | ok a =>
      cases hr' : respond' page with
      | transportError =>
        rw [hr, hr'] at hp
        cases hp
      | ok b =>
        rw [hr, hr'] at hp
        obtain ⟨h1, h2, h3, h4⟩ := hp
        simp only [fetchLoop, hr, hr', h1, h2, h3, h4]
        by_cases hc : (b.contentTypeHasHtml || b.bodyHasDoctype || b.urlHasLogin) = true
        · simp [hc]
        · simp only [hc, if_false, Bool.false_eq_true, if_neg]
          cases hj : b.json with
          | none => simp
          | some pj =>
            simp only []
            by_cases hemp : (itemsOf pj).isEmpty
            · simp [hemp]
            · simp [hemp]
              by_cases hcap : 0 < maxPages ∧ maxPages ≤ ok + 1
              · simp [hcap]
              · simp [hcap]
                exact ih maxPages (page + 1) (ok + 1) (t + (itemsOf pj).length)
                  (persist_people_to_sqlite (itemsOf pj) st) (req ++ [page])

/-- Claim C4, amended: a transport-level failure stops the loop at once
(the exception propagates before any response condition is evaluated),
signalling the transport-failure outcome; but the HTTP status code is
never consulted — two endpoints whose responses differ only in status
produce identical runs, so a non-2xx response is classified purely by
its content. -/
theorem spec_c4 :
    (∀ (respond : Nat → FetchResp) (maxPages f p0 ok0 t0 : Nat)
        (st : List Row) (req : List Nat),
      respond p0 = FetchResp.transportError →
      fetchLoop respond maxPages (f + 1) p0 ok0 t0 st req
        = ⟨.transportFail, req ++ [p0], ok0, t0, st⟩) ∧
    (∀ respond respond' : Nat → FetchResp,
      (∀ p, SameButStatus (respond p) (respond' p)) →
      ∀ fuel maxPages page ok t : Nat, ∀ (st : List Row) (req : List Nat),
        fetchLoop respond maxPages fuel page ok t st req
          = fetchLoop respond' maxPages fuel page ok t st req) := by
  constructor
  · intro respond maxPages f p0 ok0 t0 st req hresp
    simp only [fetchLoop, hresp]
  · exact fetchLoop_status_irrel

/-- Counterexample to C4 as stated: a non-2xx (status 500) zero-items
JSON response is classified as normal exhaustion, not as the
fetch-failed outcome — the loop never checks the status code. -/
theorem spec_c4_counterexample :
    respond500 1 = FetchResp.ok ⟨500, false, false, false, some (ParsedJson.dict [])⟩ ∧
    ¬(200 ≤ 500 ∧ 500 < 300) ∧
    (runFetch respond500 0 1 5).reason = StopReason.exhausted ∧
    StopReason.exhausted ≠ StopReason.transportFail := by
  refine ⟨rfl, by omega, ?_, by decide⟩
  have h : EmptyPage (respond500 1) := ⟨500, rfl⟩
  unfold runFetch
  rw [show (5 : Nat) = 4 + 1 from rfl, fetchLoop_empty_step respond500 0 4 1 0 0 [] [] h]

/-- Witness for the amended C4: a transport error on page 1 ends the run
immediately as transport failure, and the 500-status endpoint's run is
identical to the 200-status endpoint's run. -/
theorem spec_c4_witness :
    fetchLoop respondT 0 1 1 0 0 [] [] = ⟨.transportFail, [1], 0, 0, []⟩ ∧
    fetchLoop respond500 0 3 1 0 0 [] [] = fetchLoop respond200 0 3 1 0 0 [] [] := by
  constructor
  · exact spec_c4.1 respondT 0 0 1 0 0 [] [] rfl
  · exact spec_c4.2 respond500 respond200 (fun p => ⟨rfl, rfl, rfl, rfl⟩) 3 0 1 0 0 [] []

theorem countP_pos_neg (p : String → Bool) (l : List String) :
    l.countP (fun a => p a) + l.countP (fun a => !(p a)) = l.length := by
  induction l with
  | nil => rfl
  | cons a t ih =>
    rw [List.countP_cons, List.countP_cons, List.length_cons]
    cases h : p a
    · simp [h]
      omega
    · simp [h]
      omega

theorem broadcastCounts_eq (hasErr : String → Bool) (tos : List String) :
    ∀ s0 f0 : Nat,
      tos.foldl (broadcastStep hasErr) (s0, f0)
        = (s0 + tos.countP (fun u => !(hasErr u)), f0 + tos.countP (fun u => hasErr u)) := by
  induction tos with
  | nil =>
    intro s0 f0
    simp
  | cons a t ih =>
    intro s0 f0
    rw [List.foldl_cons]
    by_cases h : hasErr a
    · have hstep : broadcastStep hasErr (s0, f0) a = (s0, f0 + 1) := by
        unfold broadcastStep
        simp [h]
      rw [hstep, ih]
      simp [List.countP_cons, h]
      omega
    · have hstep : broadcastStep hasErr (s0, f0) a = (s0 + 1, f0) := by
        unfold broadcastStep
        simp [h]
      rw [hstep, ih]
      simp only [Bool.not_eq_true] at h
      simp [List.countP_cons, h]
      omega

/-- Claim C6: both batch loops attempt the operation once per target in
input order and never abort early — the outcome list has one entry per
target with matching order, success and failure counts sum to the number
of targets — and in the concrete 5-target scenario with failures at
targets 2 and 4 the outcomes are successes for 1, 3, 5 and failures for
2 and 4. -/
theorem spec_c6 (delOk : String → Bool) (tss : List String)
    (hasErr : String → Bool) (tos : List String) :
    (deleteDispatch delOk tss).length = tss.length ∧
    (deleteDispatch delOk tss).map Prod.fst = tss ∧
    deleteSuccessCount delOk tss + deleteFailureCount delOk tss = tss.length ∧
    (broadcastOutcomes hasErr tos).length = tos.length ∧
    (broadcastOutcomes hasErr tos).map Prod.fst = tos ∧
    (broadcastCounts hasErr tos).1 + (broadcastCounts hasErr tos).2 = tos.length ∧
    deleteDispatch (fun t => !(t = "t2" || t = "t4")) ["t1", "t2", "t3", "t4", "t5"]
      = [("t1", true), ("t2", false), ("t3", true), ("t4", false), ("t5", true)] := by
  refine ⟨?_, ?_, ?_, ?_, ?_, ?_, by decide⟩
  · simp [deleteDispatch]
  · unfold deleteDispatch
    rw [List.map_map]
    have h : (Prod.fst ∘ fun ts => (ts, delOk ts)) = fun ts : String => ts := rfl
    rw [h, List.map_id']
  · exact countP_pos_neg (fun ts => delOk ts) tss
  · simp [broadcastOutcomes]
  · unfold broadcastOutcomes
    rw [List.map_map]
    have h : (Prod.fst ∘ fun uid => (uid, !(hasErr uid))) = fun uid : String => uid := rfl
    rw [h, List.map_id']
  · unfold broadcastCounts
    rw [broadcastCounts_eq hasErr tos 0 0]
    simp only [Nat.zero_add]
    rw [Nat.add_comm]
    exact countP_pos_neg (fun u => hasErr u) tos

/-- Counterexample to C7 as stated: an unparseable body with the 2xx
status 204 is classified as failure by both the delete and the send
operation — the degraded fallback tests for status exactly 200, not for
any 2xx status. -/
theorem spec_c7_counterexample :
    (200 ≤ 204 ∧ 204 < 300) ∧
    delete_message ⟨false, 204, none⟩ = false ∧
    send_hasError ⟨false, false, 204, none⟩ = true := by
  decide

/-- Claim C7, amended: the degraded fallback applies at status exactly
200 only. Delete succeeds iff no transport failure, status exactly 200,
and the body is unparseable or carries a truthy "ok"; in particular any
non-200 status — 2xx or not — is failure even with a positive JSON ack.
Send succeeds iff no transport failure and no HTML content type, and
either the parsed JSON has no "error" field (any status) or the body is
unparseable with status exactly 200. -/
theorem spec_c7 (r : DeleteResp) (sr : SendResp) :
    (delete_message r = true ↔
      (r.transportFail = false ∧ r.status = 200 ∧
        (r.json = none ∨ ∃ d, r.json = some d ∧ d.ok = true))) ∧
    (send_hasError sr = false ↔
      (sr.transportFail = false ∧ sr.htmlContentType = false ∧
        ((∃ j, sr.json = some j ∧ j.hasErrorField = false) ∨
          (sr.json = none ∧ sr.status = 200)))) := by
  constructor
  · obtain ⟨tf, st, j⟩ := r
    cases tf
    · cases j with
      | none =>
        by_cases hst : st = 200
        · simp [delete_message, hst]
        · simp [delete_message, hst]
      | some d =>
        by_cases hst : st = 200
        · cases hd : d.ok
          · simp [delete_message, hst, hd]
          · simp [delete_message, hst, hd]
        · simp [delete_message, hst]
    · simp [delete_message]
  · obtain ⟨tf, html, st, j⟩ := sr
    cases tf
    · cases html
      · cases j with
        | none =>
          by_cases hst : st = 200
          · simp [send_hasError, hst]
          · simp [send_hasError, hst]
        | some jj =>
          cases hj : jj.hasErrorField
          · simp [send_hasError, hj]
          · simp [send_hasError, hj]
      · simp [send_hasError]
    · simp [send_hasError]

theorem splitFirst_not_mem (c : Char) :
    ∀ n : List Char, splitFirst c n = none → ∀ x ∈ n, x ≠ c := by
  intro n
  induction n with
  | nil =>
    intro _ x hx
    cases hx
  | cons a t ih =>
    intro h x hx
    unfold splitFirst at h
    by_cases hac : a = c
    · rw [if_pos hac] at h
      cases h
    · rw [if_neg hac] at h
      rcases List.mem_cons.mp hx with hxa | hxt
      · subst hxa
        exact hac
      · cases hsp : splitFirst c t with
        | none => exact ih hsp x hxt
        | some pr =>
          rw [hsp] at h
          cases h

theorem splitFirst_append (c : Char) :
    ∀ n v : List Char, splitFirst c n = none →
      splitFirst c (n ++ c :: v) = some (n, v) := by
  intro n
  induction n with
  | nil =>
    intro v _
    simp [splitFirst]
  | cons a t ih =>
    intro v h
    unfold splitFirst at h
    by_cases hac : a = c
    · rw [if_pos hac] at h
      cases h
    · rw [if_neg hac] at h
      have ht : splitFirst c t = none := by
        cases hsp : splitFirst c t with
        | none => rfl
        | some pr =>
          rw [hsp] at h
          cases h
      show splitFirst c (a :: (t ++ c :: v)) = some (a :: t, v)
      unfold splitFirst
      rw [if_neg hac, ih v ht]

/-- Claim C8, amended: a cookie fragment is parsed exactly when it
contains at least one "=" (not exactly one): it is split at the first
"=", the name before it and the whole remainder — further "=" signs
included — as the value, both stripped; a fragment with no "=" is
silently skipped wherever it occurs; and a header with one well-formed
pair and one pair lacking "=" yields a session holding only the
well-formed cookie. The jar is a pure function of the header (no network
call). -/
theorem spec_c8 (n v g : List Char) (fs1 fs2 : List (List Char))
    (j : List (List Char × List Char))
    (hn : splitFirst '=' n = none) (hg : splitFirst '=' g = none) :
    parsePair (n ++ '=' :: v) = some (strip n, strip v) ∧
    List.foldl cookieStep j (fs1 ++ g :: fs2) = List.foldl cookieStep j (fs1 ++ fs2) ∧
    build_session_from_cookie ("a=1; malformed".toList)
      = [("a".toList, "1".toList)] := by
  refine ⟨?_, ?_, by decide⟩
  · unfold parsePair
    rw [splitFirst_append '=' n v hn]
  · rw [List.foldl_append, List.foldl_append, List.foldl_cons]
    have hskip : cookieStep (List.foldl cookieStep j fs1) g
        = List.foldl cookieStep j fs1 := by
      unfold cookieStep parsePair
      rw [hg]
    rw [hskip]

/-- Witness for the amended C8 at concrete inputs: "a" has no "=", so
"a=b=c" parses as name "a" and value "b=c"; the fragment "junk" is
skipped between two parsed fragments. -/
theorem spec_c8_witness :
    parsePair ("a".toList ++ '=' :: "b=c".toList)
      = some (strip "a".toList, strip "b=c".toList) ∧
    List.foldl cookieStep [] ["x=1".toList, "junk".toList, "y=2".toList]
      = List.foldl cookieStep [] ["x=1".toList, "y=2".toList] ∧
    build_session_from_cookie ("a=1; malformed".toList)
      = [("a".toList, "1".toList)] :=
  spec_c8 "a".toList "b=c".toList "junk".toList ["x=1".toList] ["y=2".toList] []
    (by decide) (by decide)

/-- Counterexample to C8 as stated: the fragment "a=b=c" contains two
"=" signs — not exactly one — yet it is not skipped: the session holds
the cookie ("a", "b=c"), split at the first "=". -/
theorem spec_c8_counterexample :
    ("a=b=c".toList.count '=' = 2 ∧ ¬("a=b=c".toList.count '=' = 1)) ∧
    build_session_from_cookie ("a=b=c".toList)
      = [("a".toList, "b=c".toList)] := by
  decide

/-- Counterexample to C9 as stated: a completed delete.py run over one
channel with one deletable message whose deletion failed — every
dispatched operation failed — still exits with status 0. -/
theorem spec_c9_counterexample :
    (deleteMain "c" "t" (some "C1") [] false
        (fun _ => [⟨"message", true, "111.222", true, false⟩])
        (fun _ _ => false)).outcomes = [false] ∧
    (deleteMain "c" "t" (some "C1") [] false
        (fun _ => [⟨"message", true, "111.222", true, false⟩])
        (fun _ _ => false)).exit = 0 := by
  decide

/-- Claim C9, amended: every entry point exits 1 when a credential is
missing; a message.py broadcast in which every send failed exits 1; but
delete.py exits 0 after any completed run, even when every deletion
failed. -/
theorem spec_c9 (cookie token msgArg : String) (chArg : Option String)
    (fs : FileState) (dbIds : List String) (she : String → Bool)
    (fileChannels : List String) (dryRun : Bool)
    (messagesOf : String → List DMsg) (delOk : String → String → Bool) :
    (cookie = "" ∨ token = "" →
      getusersExit cookie token = 1 ∧
      (deleteMain cookie token chArg fileChannels dryRun messagesOf delOk).exit = 1 ∧
      (messageMain cookie token msgArg chArg fs dbIds she).exit = 1) ∧
    (¬(cookie = "" ∨ token = "") → chArg = none → dbIds ≠ [] →
      (∀ uid ∈ dbIds, she uid = true) →
      (messageMain cookie token msgArg chArg fs dbIds she).exit = 1) ∧
    (¬(cookie = "" ∨ token = "") → ∀ ch, chArg = some ch →
      (deleteMain cookie token chArg fileChannels dryRun messagesOf delOk).exit = 0) := by
  refine ⟨?_, ?_, ?_⟩
  · intro hmiss
    refine ⟨?_, ?_, ?_⟩
    · unfold getusersExit
      rw [if_pos hmiss]
    · unfold deleteMain
      rw [if_pos hmiss]
    · unfold messageMain
      simp only []
      rw [if_pos hmiss]
  · intro hcred hch hne hall
    unfold messageMain
    rw [if_neg hcred, hch]
    simp only []
    rw [if_neg hne]
    have hcnt : dbIds.countP (fun uid => she uid) = dbIds.length :=
      List.countP_eq_length.mpr (by simpa using hall)
    have hpos : 0 < dbIds.countP (fun uid => she uid) := by
      rw [hcnt]
      exact List.length_pos.mpr hne
    rw [if_pos hpos]
  · intro hcred ch hch
    unfold deleteMain
    rw [if_neg hcred, hch]
    have hng : ¬(some ch = none ∧ ([ch] : List String) = []) := by
      intro hc
      cases hc.1
    rw [if_neg hng]
    cases dryRun
    · rfl
    · rfl

/-- Witness for the amended C9 at concrete inputs. -/
theorem spec_c9_witness :
    getusersExit "" "t" = 1 ∧
    (deleteMain "" "t" none [] false (fun _ => []) (fun _ _ => true)).exit = 1 ∧
    (messageMain "" "t" "cli" none FileState.missing [] (fun _ => true)).exit = 1 ∧
    (messageMain "c" "t" "cli" none FileState.missing ["U1", "U2"]
        (fun _ => true)).exit = 1 ∧
    (deleteMain "c" "t" (some "C1") [] false (fun _ => [])
        (fun _ _ => false)).exit = 0 := by
  have hmiss : ("" : String) = "" ∨ ("t" : String) = "" := Or.inl rfl
  have hcred : ¬(("c" : String) = "" ∨ ("t" : String) = "") := by
    decide
  have h1 := (spec_c9 "" "t" "cli" none FileState.missing [] (fun _ => true)
    [] false (fun _ => []) (fun _ _ => true)).1 hmiss
  have h2 := (spec_c9 "c" "t" "cli" none FileState.missing ["U1", "U2"]
    (fun _ => true) [] false (fun _ => []) (fun _ _ => true)).2.1 hcred rfl
    (by decide) (by decide)
  have h3 := (spec_c9 "c" "t" "cli" (some "C1") FileState.missing []
    (fun _ => true) [] false (fun _ => []) (fun _ _ => false)).2.2 hcred "C1" rfl
  exact ⟨h1.1, h1.2.1, h1.2.2, h2, h3⟩

/-- Claim C10: the text message.py main actually sends — in
single-channel mode and in broadcast mode alike — is always the one read
from content.txt (stripped, with the "Hello" fallback for a missing,
unreadable or empty file); the parsed positional message argument never
influences the run. -/
theorem spec_c10 (cookie token msgArg msgArg2 : String) (chArg : Option String)
    (fs : FileState) (dbIds : List String) (she : String → Bool) (s : String) :
    (∀ pr ∈ (messageMain cookie token msgArg chArg fs dbIds she).sends,
      pr.2 = read_message_from_file fs) ∧
    messageMain cookie token msgArg chArg fs dbIds she
      = messageMain cookie token msgArg2 chArg fs dbIds she ∧
    (∀ ch, chArg = some ch → ¬(cookie = "" ∨ token = "") →
      (messageMain cookie token msgArg chArg fs dbIds she).sends
        = [(ch, read_message_from_file fs)]) ∧
    (chArg = none → ¬(cookie = "" ∨ token = "") → dbIds ≠ [] →
      (messageMain cookie token msgArg chArg fs dbIds she).sends
        = dbIds.map (fun uid => (uid, read_message_from_file fs))) ∧
    read_message_from_file (FileState.content s)
      = (if pyStrip s = "" then "Hello" else pyStrip s) ∧
    read_message_from_file FileState.missing = "Hello" ∧
    read_message_from_file FileState.unreadable = "Hello" := by
  refine ⟨?_, rfl, ?_, ?_, rfl, rfl, rfl⟩
  · intro pr hpr
    unfold messageMain at hpr
    by_cases hmiss : cookie = "" ∨ token = ""
    · rw [if_pos hmiss] at hpr
      cases hpr
    · rw [if_neg hmiss] at hpr
      cases chArg with
      | some ch =>
        simp only [List.mem_singleton] at hpr
        rw [hpr]
      | none =>
        by_cases hne : dbIds = []
        · simp only [hne] at hpr
          cases hpr
        · simp only [if_neg hne] at hpr
          obtain ⟨uid, _, hpr⟩ := List.mem_map.mp hpr
          rw [← hpr]
  · intro ch hch hcred
    unfold messageMain
    rw [if_neg hcred, hch]
  · intro hch hcred hne
    unfold messageMain
    rw [if_neg hcred, hch]
    simp only [if_neg hne]

/-- Witness for C10: a broadcast run with a CLI message argument sends
the content.txt text to both recipients. -/
theorem spec_c10_witness :
    (∀ pr ∈ (messageMain "c" "t" "cli text" none
        (FileState.content "  file text  ") ["U1", "U2"] (fun _ => false)).sends,
      pr.2 = read_message_from_file (FileState.content "  file text  ")) ∧
    (messageMain "c" "t" "cli text" none (FileState.content "  file text  ")
        ["U1", "U2"] (fun _ => false)).sends
      = [("U1", "file text"), ("U2", "file text")] := by
  have hcred : ¬(("c" : String) = "" ∨ ("t" : String) = "") := by
    decide
  have h := spec_c10 "c" "t" "cli text" "other" none
    (FileState.content "  file text  ") ["U1", "U2"] (fun _ => false) ""
  refine ⟨h.1, ?_⟩
  have hb := h.2.2.2.1 rfl hcred (by decide)
  rw [hb]
  decide

end BotLoop
